import Mathlib

/-!
Verification of the `wcr` word-count utility (`src/lib.rs`).

The input of the counting engine is modelled as a list of bytes
(`List Nat`, each element a byte value).  `BufRead::read_line` reads
bytes up to and including the newline byte `0x0A` and appends them to a
UTF-8 `String`, failing with an error when the bytes read are not valid
UTF-8; we model this with `splitLines` and a faithful UTF-8 decoder
`utf8Decode` returning the decoded codepoints (`none` on invalid input).
-/

/-- The four counters of `FileInfo` in `src/lib.rs` (`usize` fields,
modelled as `Nat`). -/
structure FileInfo where
  num_lines : Nat
  num_words : Nat
  num_bytes : Nat
  num_chars : Nat
deriving DecidableEq, Repr

/-- Decode one UTF-8 codepoint from a leading byte `b` and the remaining
bytes `bs`, following Rust's UTF-8 validation: rejects stray continuation
bytes, overlong encodings (leading bytes `0xC0`/`0xC1`, and the range
checks on the first continuation byte), surrogates (`0xED` followed by
`0xA0`..) and values above `0x10FFFF` (leading bytes above `0xF4`).
Returns the codepoint and the bytes left. -/
def utf8Step (b : Nat) (bs : List Nat) : Option (Nat × List Nat) :=
  if b < 128 then some (b, bs)
  else if b < 194 then none
  else if b < 224 then
    match bs with
    | b1 :: bs1 =>
      if 128 ≤ b1 ∧ b1 < 192 then
        some ((b - 192) * 64 + (b1 - 128), bs1)
      else none
    | [] => none
  else if b < 240 then
    match bs with
    | b1 :: b2 :: bs2 =>
      if (128 ≤ b1 ∧ b1 < 192) ∧ (128 ≤ b2 ∧ b2 < 192) ∧
          (b = 224 → 160 ≤ b1) ∧ (b = 237 → b1 < 160) then
        some ((b - 224) * 4096 + (b1 - 128) * 64 + (b2 - 128), bs2)
      else none
    | _ => none
  else if b < 245 then
    match bs with
    | b1 :: b2 :: b3 :: bs3 =>
      if (128 ≤ b1 ∧ b1 < 192) ∧ (128 ≤ b2 ∧ b2 < 192) ∧
          (128 ≤ b3 ∧ b3 < 192) ∧
          (b = 240 → 144 ≤ b1) ∧ (b = 244 → b1 < 144) then
        some ((b - 240) * 262144 + (b1 - 128) * 4096 +
          (b2 - 128) * 64 + (b3 - 128), bs3)
      else none
    | _ => none
  else none

/-- Decode a whole byte list into codepoints by iterating `utf8Step`.
Each step consumes at least the leading byte, so a fuel equal to the list
length always suffices; the fuel only makes the recursion structural. -/
def utf8DecodeF : Nat → List Nat → Option (List Nat)
  | _, [] => some []
  | 0, _ :: _ => none
  | fuel + 1, b :: bs =>
    match utf8Step b bs with
    | none => none
    | some p => (utf8DecodeF fuel p.2).map (fun cs => p.1 :: cs)

/-- UTF-8 decoding of a byte list into its codepoints, as performed by
Rust when appending the bytes read by `read_line` to a `String`. -/
def utf8Decode (s : List Nat) : Option (List Nat) :=
  utf8DecodeF s.length s

/-- Helper for `splitLines`: `acc` holds the bytes of the current line
read so far, in reverse order. -/
def splitLinesAux : List Nat → List Nat → List (List Nat)
  | [], acc => if acc = [] then [] else [acc.reverse]
  | b :: bs, acc =>
    if b = 10 then (acc.reverse ++ [10]) :: splitLinesAux bs []
    else splitLinesAux bs (b :: acc)

/-- The sequence of "lines" produced by repeated `read_line` calls: each
line includes its trailing `0x0A` byte, the final fragment may lack it. -/
def splitLines (s : List Nat) : List (List Nat) := splitLinesAux s []

/-- Unicode `White_Space` codepoints, matching Rust `char::is_whitespace`
as used by `split_whitespace` in `count`. -/
def isWhitespace (c : Nat) : Bool :=
  (9 ≤ c && c ≤ 13) || c == 32 || c == 133 || c == 160 || c == 5760 ||
  (8192 ≤ c && c ≤ 8202) || c == 8232 || c == 8233 || c == 8239 ||
  c == 8287 || c == 12288

/-- Helper for `countWords`: the boolean tracks whether the scan is
currently inside a word. -/
def countWordsAux : List Nat → Bool → Nat
  | [], _ => 0
  | c :: cs, inWord =>
    if isWhitespace c then countWordsAux cs false
    else (if inWord then 0 else 1) + countWordsAux cs true

/-- The value of `line.split_whitespace().count()`: the number of maximal runs of
non-whitespace codepoints. -/
def countWords (cs : List Nat) : Nat := countWordsAux cs false

/-- One iteration of the loop body of `count` in `src/lib.rs` on a
non-empty line: increment the line counter, add the byte length of the
line, its word count and its codepoint count; fail if the line is not
valid UTF-8 (the `?` on `read_line`). -/
def countLine (info : FileInfo) (line : List Nat) : Option FileInfo :=
  (utf8Decode line).map (fun cs =>
    { num_lines := info.num_lines + 1
      num_bytes := info.num_bytes + line.length
      num_words := info.num_words + countWords cs
      num_chars := info.num_chars + cs.length })

/-- The loop of `count`, folded over the list of lines. -/
def countLoop : FileInfo → List (List Nat) → Option FileInfo
  | info, [] => some info
  | info, l :: ls =>
    match countLine info l with
    | none => none
    | some i => countLoop i ls

/-- The function `count` from `src/lib.rs`: read the stream line by line, accumulating
the four counters; returns `none` when a read fails (invalid UTF-8). -/
def count (s : List Nat) : Option FileInfo :=
  countLoop ⟨0, 0, 0, 0⟩ (splitLines s)

/-- The `Config` struct of `src/lib.rs`: the filename list and the four
display flags. -/
structure Config where
  files : List String
  lines : Bool
  words : Bool
  bytes : Bool
  chars : Bool
deriving DecidableEq, Repr

/-- The function `format_field` from `src/lib.rs`: when `shw` is true, render the
value right-justified to a minimum width of 8 with space fill
(Rust `format!` with the `:>8` spec); otherwise the empty string. -/
def format_field (value : Nat) (shw : Bool) : String :=
  if shw then String.mk (List.replicate (8 - (Nat.repr value).length) ' ') ++ Nat.repr value
  else ""

/-- The per-file output line printed by `run` on a successful count:
four formatted fields concatenated with no separator, then a space and
the filename unless the filename is the stdin placeholder. -/
def fileLine (cfg : Config) (res : FileInfo) (filename : String) : String :=
  format_field res.num_lines cfg.lines ++ format_field res.num_words cfg.words ++
  format_field res.num_bytes cfg.bytes ++ format_field res.num_chars cfg.chars ++
  (if filename = "-" then "" else " " ++ filename)

/-- The flag-defaulting step at the top of `run`: when all four display
flags are false, enable lines, words and bytes. -/
def applyDefaults (cfg : Config) : Config :=
  if cfg.lines = false ∧ cfg.words = false ∧ cfg.bytes = false ∧ cfg.chars = false then
    { cfg with lines := true, words := true, bytes := true }
  else cfg

/-- The world visible to `run`: the bytes on standard input, the
contents of each openable file (`none` models an open failure) and the
description of each open error (Rust's `Display` of the `io::Error`). -/
structure Env where
  stdin : List Nat
  fs : String → Option (List Nat)
  errMsg : String → String

/-- The function `open` from `src/lib.rs`: the stdin placeholder always opens onto
standard input; otherwise `File::open`, which may fail. -/
def openFile (env : Env) (filename : String) : Option (List Nat) :=
  if filename = "-" then some env.stdin else env.fs filename

/-- The mutable state of the loop in `run`: the four total accumulators
and the lines emitted so far on standard output and standard error. -/
structure RunState where
  total_lines : Nat
  total_words : Nat
  total_bytes : Nat
  total_chars : Nat
  stdout : List String
  stderr : List String
deriving DecidableEq, Repr

/-- One iteration of the `for filename in &config.files` loop of `run`:
open failure prints a diagnostic to stderr; a successful count prints the
file line and adds the counts to the totals; a failed count is skipped
silently. -/
def runStep (env : Env) (cfg : Config) (st : RunState) (filename : String) : RunState :=
  match openFile env filename with
  | none => { st with stderr := st.stderr ++ [filename ++ ": " ++ env.errMsg filename] }
  | some dat =>
    match count dat with
    | none => st
    | some res =>
      { st with
        stdout := st.stdout ++ [fileLine cfg res filename]
        total_lines := st.total_lines + res.num_lines
        total_words := st.total_words + res.num_words
        total_bytes := st.total_bytes + res.num_bytes
        total_chars := st.total_chars + res.num_chars }

/-- The ` total` line printed after the loop when more than one filename
was supplied. -/
def totalLine (cfg : Config) (st : RunState) : String :=
  format_field st.total_lines cfg.lines ++ format_field st.total_words cfg.words ++
  format_field st.total_bytes cfg.bytes ++ format_field st.total_chars cfg.chars ++
  " total"

/-- The state of `run` after the whole body: defaults applied, the loop
folded over the filenames from zeroed accumulators, and the total line
appended when `config.files.len() > 1`. -/
def runState (env : Env) (cfg0 : Config) : RunState :=
  let cfg := applyDefaults cfg0
  let st := cfg.files.foldl (runStep env cfg) ⟨0, 0, 0, 0, [], []⟩
  if cfg.files.length > 1 then { st with stdout := st.stdout ++ [totalLine cfg st] } else st

/-- The function `run` from `src/lib.rs`: its `MyResult<()>` return is always
`Ok(())`; the observable effects are recorded in the `RunState`. -/
def run (env : Env) (cfg : Config) : Except String RunState :=
  .ok (runState env cfg)

/-- Composition of `open` and `count`: the `FileInfo` of a filename
that both opens and counts successfully. -/
def countedInfo (env : Env) (filename : String) : Option FileInfo :=
  (openFile env filename).bind count

/-- The output lines of exactly the files that open and count
successfully, in order. -/
def perFileLines (env : Env) (cfg : Config) (fns : List String) : List String :=
  fns.filterMap (fun fn => (countedInfo env fn).map (fun res => fileLine cfg res fn))

/-- The diagnostic lines of exactly the files that fail to open, in
order. -/
def diagLines (env : Env) (fns : List String) : List String :=
  fns.filterMap (fun fn =>
    match openFile env fn with
    | none => some (fn ++ ": " ++ env.errMsg fn)
    | some _ => none)

/-- Sum of the line counts over the successfully counted files. -/
def totLines (env : Env) (fns : List String) : Nat :=
  ((fns.filterMap (countedInfo env)).map FileInfo.num_lines).sum

/-- Sum of the word counts over the successfully counted files. -/
def totWords (env : Env) (fns : List String) : Nat :=
  ((fns.filterMap (countedInfo env)).map FileInfo.num_words).sum

/-- Sum of the byte counts over the successfully counted files. -/
def totBytes (env : Env) (fns : List String) : Nat :=
  ((fns.filterMap (countedInfo env)).map FileInfo.num_bytes).sum

/-- Sum of the character counts over the successfully counted files. -/
def totChars (env : Env) (fns : List String) : Nat :=
  ((fns.filterMap (countedInfo env)).map FileInfo.num_chars).sum

/-- The total line, expressed through the declarative sums. -/
def totalsLine (env : Env) (cfg : Config) (fns : List String) : String :=
  format_field (totLines env fns) cfg.lines ++ format_field (totWords env fns) cfg.words ++
  format_field (totBytes env fns) cfg.bytes ++ format_field (totChars env fns) cfg.chars ++
  " total"

/-- Modelled from the spec: the command-line surface is parsed by the
`clap` derive macro on `Config` (library code outside this repository).
An `ArgSpec` records which of the four display flags appear on the
command line and the positional `FILES` arguments. -/
structure ArgSpec where
  files : List String
  lines : Bool
  words : Bool
  bytes : Bool
  chars : Bool
deriving DecidableEq, Repr

/-- Modelled from the spec: `clap` argument parsing of `Config` with the
declared `conflicts_with = "chars"` rule on the `bytes` flag — requesting
both `-c` and `-m` is a usage error; otherwise the flags are taken as
given and an empty positional list defaults to `["-"]`. -/
def parseArgs (args : ArgSpec) : Except String Config :=
  if args.bytes && args.chars then
    .error "the argument cannot be used with one or more of the other specified arguments"
  else
    .ok ⟨if args.files = [] then ["-"] else args.files,
      args.lines, args.words, args.bytes, args.chars⟩

/-- Modelled from the spec: the process parses the arguments and then
calls `run`; on a usage error it exits with `clap`'s nonzero code 2
having processed no file, otherwise it exits 0 with the effects of
`run`.  The components are the exit code, the stdout lines and the
per-file diagnostic lines. -/
def mainModel (env : Env) (args : ArgSpec) : Nat × List String × List String :=
  match parseArgs args with
  | .error _ => (2, [], [])
  | .ok cfg => (0, (runState env cfg).stdout, (runState env cfg).stderr)

/-- Concrete environment: only the file `a` (one byte `a`) exists. -/
def envW : Env :=
  ⟨[], fun fn => if fn = "a" then some [97] else none,
    fun _ => "No such file or directory (os error 2)"⟩

/-- Concrete configuration: a missing file followed by an existing one,
no display flags. -/
def cfgW : Config := ⟨["missing", "a"], false, false, false, false⟩

/-- Concrete environment: the file `bad` holds the single byte `0xFF`
(not valid UTF-8) and the file `good` holds the two bytes of a line
reading `a`. -/
def env10 : Env :=
  ⟨[], fun fn => if fn = "bad" then some [255] else if fn = "good" then some [97, 10] else none,
    fun _ => "err"⟩

/-- Concrete configuration naming `bad` then `good`, no display flags. -/
def cfg10 : Config := ⟨["bad", "good"], false, false, false, false⟩

theorem applyDefaults_files (cfg : Config) : (applyDefaults cfg).files = cfg.files := by
  unfold applyDefaults
  split <;> rfl

theorem foldl_runStep_eq (env : Env) (cfg : Config) :
    ∀ (fns : List String) (st : RunState),
    List.foldl (runStep env cfg) st fns =
      ⟨st.total_lines + totLines env fns, st.total_words + totWords env fns,
       st.total_bytes + totBytes env fns, st.total_chars + totChars env fns,
       st.stdout ++ perFileLines env cfg fns, st.stderr ++ diagLines env fns⟩ := by
  intro fns
  induction fns with
  | nil =>
    intro st
    simp [totLines, totWords, totBytes, totChars, perFileLines, diagLines]
  | cons fn fns ih =>
    intro st
    simp only [List.foldl_cons]
    rw [ih]
    cases ho : openFile env fn with
    | none =>
      simp [runStep, ho, totLines, totWords, totBytes, totChars, perFileLines,
        diagLines, countedInfo, List.filterMap_cons]
    | some dat =>
      cases hc : count dat with
      | none =>
        simp [runStep, ho, hc, totLines, totWords, totBytes, totChars, perFileLines,
          diagLines, countedInfo, List.filterMap_cons]
      | some res =>
        simp only [runStep, ho, hc, countedInfo, Option.some_bind, Option.map_some',
          totLines, totWords, totBytes, totChars, perFileLines, diagLines,
          List.filterMap_cons, List.map_cons, List.sum_cons, List.append_assoc,
          List.singleton_append, RunState.mk.injEq]
        refine ⟨by omega, by omega, by omega, by omega, trivial, trivial⟩

/-- Characterization of the final state of `run`: the totals are the
sums over the successfully counted files, stderr holds one diagnostic per
open failure, stdout holds one line per counted file plus the total line
exactly when more than one filename was supplied. -/
theorem runState_eq (env : Env) (cfg : Config) :
    runState env cfg =
      ⟨totLines env cfg.files, totWords env cfg.files,
       totBytes env cfg.files, totChars env cfg.files,
       perFileLines env (applyDefaults cfg) cfg.files ++
         (if cfg.files.length > 1 then [totalsLine env (applyDefaults cfg) cfg.files] else []),
       diagLines env cfg.files⟩ := by
  have hf := applyDefaults_files cfg
  simp only [runState, hf, foldl_runStep_eq]
  by_cases h : cfg.files.length > 1
  · simp [h, totalLine, totalsLine]
  · simp [h]

theorem utf8Step_snd_length_le (b : Nat) (bs : List Nat) (p : Nat × List Nat)
    (h : utf8Step b bs = some p) : p.2.length ≤ bs.length := by
  rcases bs with _ | ⟨b1, _ | ⟨b2, _ | ⟨b3, bs3⟩⟩⟩ <;>
    simp only [utf8Step] at h <;>
    split_ifs at h <;>
    simp_all <;>
    (try obtain rfl := h.symm) <;>
    simp <;>
    omega

theorem utf8DecodeF_length_le :
    ∀ (fuel : Nat) (s cs : List Nat), utf8DecodeF fuel s = some cs → cs.length ≤ s.length := by
  intro fuel
  induction fuel with
  | zero =>
    intro s cs h
    cases s with
    | nil =>
      simp only [utf8DecodeF, Option.some.injEq] at h
      simp [← h]
    | cons b bs => simp [utf8DecodeF] at h
  | succ n ih =>
    intro s cs h
    cases s with
    | nil =>
      simp only [utf8DecodeF, Option.some.injEq] at h
      simp [← h]
    | cons b bs =>
      simp only [utf8DecodeF] at h
      cases hs : utf8Step b bs with
      | none => rw [hs] at h; simp at h
      | some p =>
        rw [hs] at h
        simp only [Option.map_eq_some'] at h
        obtain ⟨cs0, h0, rfl⟩ := h
        have h1 := ih p.2 cs0 h0
        have h2 := utf8Step_snd_length_le b bs p hs
        simp only [List.length_cons]
        omega

theorem utf8Decode_length_le (s cs : List Nat) (h : utf8Decode s = some cs) :
    cs.length ≤ s.length :=
  utf8DecodeF_length_le s.length s cs h

theorem countLoop_chars_le_bytes :
    ∀ (ls : List (List Nat)) (info out : FileInfo),
    info.num_chars ≤ info.num_bytes → countLoop info ls = some out →
    out.num_chars ≤ out.num_bytes := by
  intro ls
  induction ls with
  | nil =>
    intro info out hle h
    simp only [countLoop, Option.some.injEq] at h
    exact h ▸ hle
  | cons l ls ih =>
    intro info out hle h
    simp only [countLoop, countLine] at h
    cases hd : utf8Decode l with
    | none => rw [hd] at h; simp at h
    | some cs =>
      rw [hd] at h
      simp only [Option.map_some'] at h
      refine ih _ out ?_ h
      have := utf8Decode_length_le l cs hd
      simp only []
      omega

theorem splitLinesAux_no_newline :
    ∀ (s acc : List Nat), 10 ∉ s → (acc = [] → s ≠ []) →
    splitLinesAux s acc = [acc.reverse ++ s] := by
  intro s
  induction s with
  | nil =>
    intro acc _ hne
    have hacc : ¬ acc = [] := fun h => (hne h) rfl
    simp [splitLinesAux, hacc]
  | cons b bs ih =>
    intro acc hnt _
    have hb : ¬ b = 10 := fun h => hnt (h ▸ List.mem_cons_self b bs)
    simp only [splitLinesAux, if_neg hb]
    rw [ih (b :: acc) (fun hm => hnt (List.mem_cons_of_mem b hm)) (fun h => absurd h (by simp))]
    simp

theorem splitLines_no_newline (s : List Nat) (hne : s ≠ []) (h10 : 10 ∉ s) :
    splitLines s = [s] := by
  unfold splitLines
  rw [splitLinesAux_no_newline s [] h10 (fun _ => hne)]
  simp

/-- C1: for the 48-byte input `I don't want the world. I just want your
half.` followed by carriage return and newline, `count` returns
1 line, 10 words, 48 bytes and 48 characters. -/
theorem count_test_text :
    count [73, 32, 100, 111, 110, 39, 116, 32, 119, 97, 110, 116, 32,
      116, 104, 101, 32, 119, 111, 114, 108, 100, 46, 32, 73, 32, 106, 117,
      115, 116, 32, 119, 97, 110, 116, 32, 121, 111, 117, 114, 32, 104, 97,
      108, 102, 46, 13, 10] = some ⟨1, 10, 48, 48⟩ := by
  decide

/-- C7: for the empty input stream `count` succeeds and returns all four
counters zero. -/
theorem count_empty : count [] = some ⟨0, 0, 0, 0⟩ := rfl

/-- C3: for every input stream on which `count` succeeds, the four
returned counters are non-negative and the byte count is at least the
character count. -/
theorem count_invariant (s : List Nat) (info : FileInfo) (h : count s = some info) :
    0 ≤ info.num_lines ∧ 0 ≤ info.num_words ∧ 0 ≤ info.num_bytes ∧
    0 ≤ info.num_chars ∧ info.num_chars ≤ info.num_bytes := by
  refine ⟨Nat.zero_le _, Nat.zero_le _, Nat.zero_le _, Nat.zero_le _, ?_⟩
  exact countLoop_chars_le_bytes (splitLines s) ⟨0, 0, 0, 0⟩ info (Nat.le_refl 0) h

/-- Witness for C3 at the one-byte stream `a`. -/
theorem count_invariant_witness :
    0 ≤ (1 : Nat) ∧ 0 ≤ (1 : Nat) ∧ 0 ≤ (1 : Nat) ∧ 0 ≤ (1 : Nat) ∧ (1 : Nat) ≤ 1 :=
  count_invariant [97] ⟨1, 1, 1, 1⟩ (by decide)

/-- Counterexample to C8 as stated: the stream holding the single byte
`0xFF` is non-empty and has no line terminator, yet `count` does not
return a `FileInfo` at all (the byte is not valid UTF-8), so in
particular it does not return `num_lines = 1`. -/
theorem count_single_fragment_cex :
    ([255] : List Nat) ≠ [] ∧ (10 : Nat) ∉ ([255] : List Nat) ∧ count [255] = none := by
  decide

/-- C8 (amended): for every non-empty input stream consisting of a
single fragment with no trailing line terminator, on which `count`
succeeds, the returned `num_lines` is 1 and the fragment's bytes, words
and codepoints make up the other counters. -/
theorem count_single_fragment (s : List Nat) (info : FileInfo)
    (hne : s ≠ []) (h10 : (10 : Nat) ∉ s) (h : count s = some info) :
    info.num_lines = 1 ∧ info.num_bytes = s.length ∧
    ∃ cs, utf8Decode s = some cs ∧ info.num_words = countWords cs ∧
      info.num_chars = cs.length := by
  unfold count at h
  rw [splitLines_no_newline s hne h10] at h
  simp only [countLoop, countLine] at h
  cases hd : utf8Decode s with
  | none => rw [hd] at h; simp at h
  | some cs =>
    rw [hd] at h
    simp only [Option.map_some', Option.some.injEq] at h
    refine ⟨?_, ?_, cs, rfl, ?_, ?_⟩ <;> simp [← h]

/-- Witness for C8 at the one-byte stream `a`. -/
theorem count_single_fragment_witness :
    ([97] : List Nat) ≠ [] ∧ (10 : Nat) ∉ ([97] : List Nat) ∧
    ((1 : Nat) = 1 ∧ (1 : Nat) = ([97] : List Nat).length ∧
      ∃ cs, utf8Decode [97] = some cs ∧ (1 : Nat) = countWords cs ∧
        (1 : Nat) = cs.length) :=
  ⟨by decide, by decide,
    count_single_fragment [97] ⟨1, 1, 1, 1⟩ (by decide) (by decide) (by decide)⟩

/-- C5: a field whose flag is off contributes the empty string; a field
whose flag is on is the decimal numeral right-justified with space fill
to width 8 (total width the larger of 8 and the numeral length); the
output line is the four columns concatenated with no separator, followed
by a space and the filename exactly when the filename is not the
standard-input placeholder. -/
theorem format_field_spec :
    (∀ v : Nat, format_field v false = "") ∧
    (∀ v : Nat, format_field v true =
      String.mk (List.replicate (8 - (Nat.repr v).length) ' ') ++ Nat.repr v) ∧
    (∀ v : Nat, (format_field v true).length = max 8 (Nat.repr v).length) ∧
    (∀ (cfg : Config) (res : FileInfo) (fn : String),
      fileLine cfg res fn =
        format_field res.num_lines cfg.lines ++ format_field res.num_words cfg.words ++
        format_field res.num_bytes cfg.bytes ++ format_field res.num_chars cfg.chars ++
        (if fn = "-" then "" else " " ++ fn)) := by
  refine ⟨fun v => rfl, fun v => rfl, fun v => ?_, fun cfg res fn => rfl⟩
  have hlen : ∀ s : String, s.length = s.data.length := fun _ => rfl
  have hdata : ∀ x y : String, (x ++ y).data = x.data ++ y.data := fun _ _ => rfl
  simp only [format_field, if_pos trivial, hlen, hdata, List.length_append,
    List.length_replicate]
  omega

/-- C6: when all four display flags are false, the defaulting step of
`run` enables exactly lines, words and bytes, leaving chars disabled and
the filename list unchanged; when at least one flag is set, the
configuration is unchanged. -/
theorem applyDefaults_spec (cfg : Config) :
    (cfg.lines = false ∧ cfg.words = false ∧ cfg.bytes = false ∧ cfg.chars = false →
      applyDefaults cfg =
        ⟨cfg.files, true, true, true, false⟩) ∧
    (cfg.lines = true ∨ cfg.words = true ∨ cfg.bytes = true ∨ cfg.chars = true →
      applyDefaults cfg = cfg) := by
  obtain ⟨f, l, w, b, c⟩ := cfg
  constructor
  · rintro ⟨h1, h2, h3, h4⟩
    subst h1; subst h2; subst h3; subst h4
    rfl
  · intro h
    unfold applyDefaults
    rw [if_neg]
    rintro ⟨h1, h2, h3, h4⟩
    simp_all

/-- Witness for C6: with no flags set the defaults are lines, words and
bytes; with the chars flag set nothing changes. -/
theorem applyDefaults_spec_witness :
    applyDefaults ⟨["-"], false, false, false, false⟩ = ⟨["-"], true, true, true, false⟩ ∧
    applyDefaults ⟨["-"], false, false, false, true⟩ = ⟨["-"], false, false, false, true⟩ :=
  ⟨(applyDefaults_spec _).1 ⟨rfl, rfl, rfl, rfl⟩,
   (applyDefaults_spec _).2 (Or.inr (Or.inr (Or.inr rfl)))⟩

/-- C2: the standard output of a run is the per-file lines followed by a
total line exactly when more than one filename was supplied, and each of
the total line's four numbers is the arithmetic sum of the corresponding
counters over exactly the files that opened and counted successfully. -/
theorem run_total_line (env : Env) (cfg : Config) :
    (runState env cfg).stdout =
      perFileLines env (applyDefaults cfg) cfg.files ++
        (if cfg.files.length > 1 then
          [format_field (((cfg.files.filterMap (countedInfo env)).map FileInfo.num_lines).sum)
              (applyDefaults cfg).lines ++
            format_field (((cfg.files.filterMap (countedInfo env)).map FileInfo.num_words).sum)
              (applyDefaults cfg).words ++
            format_field (((cfg.files.filterMap (countedInfo env)).map FileInfo.num_bytes).sum)
              (applyDefaults cfg).bytes ++
            format_field (((cfg.files.filterMap (countedInfo env)).map FileInfo.num_chars).sum)
              (applyDefaults cfg).chars ++ " total"]
        else []) := by
  rw [runState_eq]
  rfl

/-- C4: when a named file fails to open, the run emits exactly one
diagnostic of the form `filename: error description` to the error
stream, prints no output line for that file, adds nothing for it to the
totals, still processes every filename before and after it, and the run
as a whole still returns successfully. -/
theorem run_open_failure (env : Env) (cfg : Config) (pre post : List String) (fn : String)
    (hsplit : cfg.files = pre ++ fn :: post) (hopen : openFile env fn = none) :
    run env cfg = .ok (runState env cfg) ∧
    (runState env cfg).stderr =
      diagLines env pre ++ [fn ++ ": " ++ env.errMsg fn] ++ diagLines env post ∧
    (runState env cfg).stdout =
      perFileLines env (applyDefaults cfg) pre ++ perFileLines env (applyDefaults cfg) post ++
        (if cfg.files.length > 1 then [totalsLine env (applyDefaults cfg) cfg.files] else []) ∧
    totLines env cfg.files = totLines env (pre ++ post) ∧
    totWords env cfg.files = totWords env (pre ++ post) ∧
    totBytes env cfg.files = totBytes env (pre ++ post) ∧
    totChars env cfg.files = totChars env (pre ++ post) := by
  have hci : countedInfo env fn = none := by simp [countedInfo, hopen]
  refine ⟨rfl, ?_, ?_, ?_, ?_, ?_, ?_⟩
  · rw [runState_eq]
    simp [hsplit, diagLines, List.filterMap_append, List.filterMap_cons, hopen]
  · rw [runState_eq]
    have hpf : perFileLines env (applyDefaults cfg) cfg.files =
        perFileLines env (applyDefaults cfg) pre ++ perFileLines env (applyDefaults cfg) post := by
      rw [hsplit]
      simp [perFileLines, List.filterMap_append, List.filterMap_cons, hci]
    rw [hpf, List.append_assoc]
  · rw [hsplit]; simp [totLines, List.filterMap_append, List.filterMap_cons, hci]
  · rw [hsplit]; simp [totWords, List.filterMap_append, List.filterMap_cons, hci]
  · rw [hsplit]; simp [totBytes, List.filterMap_append, List.filterMap_cons, hci]
  · rw [hsplit]; simp [totChars, List.filterMap_append, List.filterMap_cons, hci]

/-- Witness for C4: the configuration `cfgW` lists a missing file and
then the existing file `a`; the missing file yields one diagnostic and
the run still succeeds. -/
theorem run_open_failure_witness :
    cfgW.files = [] ++ "missing" :: ["a"] ∧ openFile envW "missing" = none ∧
    (run envW cfgW = .ok (runState envW cfgW) ∧
      (runState envW cfgW).stderr =
        diagLines envW [] ++ ["missing" ++ ": " ++ envW.errMsg "missing"] ++ diagLines envW ["a"] ∧
      (runState envW cfgW).stdout =
        perFileLines envW (applyDefaults cfgW) [] ++ perFileLines envW (applyDefaults cfgW) ["a"] ++
          (if cfgW.files.length > 1 then [totalsLine envW (applyDefaults cfgW) cfgW.files] else []) ∧
      totLines envW cfgW.files = totLines envW ([] ++ ["a"]) ∧
      totWords envW cfgW.files = totWords envW ([] ++ ["a"]) ∧
      totBytes envW cfgW.files = totBytes envW ([] ++ ["a"]) ∧
      totChars envW cfgW.files = totChars envW ([] ++ ["a"])) :=
  ⟨rfl, rfl, run_open_failure envW cfgW [] ["a"] "missing" rfl rfl⟩

/-- C9: when both the byte flag and the character flag are requested,
argument parsing fails with a usage error, the process exit code is
nonzero, and no file is processed (no stdout line, no diagnostic). -/
theorem bytes_chars_conflict (env : Env) (args : ArgSpec)
    (hb : args.bytes = true) (hc : args.chars = true) :
    (∃ e, parseArgs args = .error e) ∧ (mainModel env args).1 ≠ 0 ∧
    (mainModel env args).2.1 = [] ∧ (mainModel env args).2.2 = [] := by
  have hcond : (args.bytes && args.chars) = true := by simp [hb, hc]
  have hp : parseArgs args =
      .error "the argument cannot be used with one or more of the other specified arguments" := by
    simp [parseArgs, hcond]
  refine ⟨⟨_, hp⟩, ?_, ?_, ?_⟩ <;> simp [mainModel, hp]

/-- Witness for C9: requesting `-c` and `-m` together. -/
theorem bytes_chars_conflict_witness :
    (∃ e, parseArgs ⟨[], false, false, true, true⟩ = .error e) ∧
    (mainModel envW ⟨[], false, false, true, true⟩).1 ≠ 0 ∧
    (mainModel envW ⟨[], false, false, true, true⟩).2.1 = [] ∧
    (mainModel envW ⟨[], false, false, true, true⟩).2.2 = [] :=
  bytes_chars_conflict envW ⟨[], false, false, true, true⟩ rfl rfl

/-- C10: the stream holding the single byte `0xFF` is not valid UTF-8
and `count` fails on it although the file `bad` opened successfully; the
driver prints no output line for it, no diagnostic, and adds nothing to
the totals, while the following file `good` is processed normally and
the run completes with the totals of `good` alone. -/
theorem invalid_utf8_skipped_silently :
    utf8Decode [255] = none ∧ count [255] = none ∧
    openFile env10 "bad" = some [255] ∧
    runState env10 cfg10 =
      ⟨1, 1, 2, 2,
        ["       1       1       2 good", "       1       1       2 total"], []⟩ := by
  decide
